import Mathlib

/-
Shallow embedding of the OBS show orchestration engine of this repository:
  src/api/obs_controller/queueing_loop.py  (QueueingLoop)
  src/api/obs_controller/show_runner.py    (ShowRunner)
  src/api/obs_controller/obs_control.py    (OBSController.monitor_stream_status)

Python's queue.PriorityQueue stores (priority, counter, item) tuples in a
binary heap and `get` retrieves the lowest valued entry under Python tuple
comparison.  The heap is modelled at the level of the stored multiset: `put`
appends the entry, `get` removes a minimal entry.
-/

/-- Lexicographic comparison of lists of naturals; models Python's
lexicographic comparison of strings restricted to their code points. -/
def natsLe : List Nat → List Nat → Bool
  | [], _ => true
  | _ :: _, [] => false
  | a :: as, b :: bs =>
    if a < b then true else if b < a then false else natsLe as bs

/-- Python string comparison: lexicographic on Unicode code points. -/
def strLe (s t : String) : Bool :=
  natsLe (s.data.map Char.toNat) (t.data.map Char.toNat)

/-- Python tuple comparison on the (priority, counter, item) entries stored in
the PriorityQueue. -/
def tripLe (a b : Nat × Nat × String) : Bool :=
  if a.1 < b.1 then true
  else if b.1 < a.1 then false
  else if a.2.1 < b.2.1 then true
  else if b.2.1 < a.2.1 then false
  else strLe a.2.2 b.2.2

/-- The lowest valued entry of the heap (what PriorityQueue.get retrieves);
none when the heap is empty. -/
def heapMin : List (Nat × Nat × String) → Option (Nat × Nat × String)
  | [] => none
  | x :: xs =>
    match heapMin xs with
    | none => some x
    | some m => if tripLe x m then some x else some m

/-- Remove the first occurrence of a value from a list: the effect of popping
the minimal heap entry, seen at the level of the stored multiset. -/
def removeFirst : List (Nat × Nat × String) → (Nat × Nat × String) →
    List (Nat × Nat × String)
  | [], _ => []
  | y :: ys, x => if y = x then ys else y :: removeFirst ys x

/-- State of queueing_loop.QueueingLoop: the PriorityQueue contents (as the
list of (priority, counter, item) entries in insertion order), the insertion
counter, the open flag, and the PriorityQueue capacity (`max_size`, 0 meaning
unbounded). -/
structure QueueingLoop where
  video_playlist : List (Nat × Nat × String)
  counter : Nat
  queue_open : Bool
  max_size : Nat
  deriving DecidableEq, Repr

namespace QueueingLoop

/-- QueueingLoop.__init__: empty queue, counter 0, closed, default capacity
20. -/
def init : QueueingLoop := ⟨[], 0, false, 20⟩

/-- QueueingLoop.enqueue.  The require_queue_open decorator returns Python
None (modelled `none`) on a closed queue; put_nowait raises Full when the
queue is at capacity, which the except clause turns into False, and the
counter increment is skipped. -/
def enqueue (q : QueueingLoop) (item : String) (priority : Nat) :
    Option Bool × QueueingLoop :=
  if q.queue_open = false then (none, q)
  else if q.max_size = 0 ∨ q.video_playlist.length < q.max_size then
    (some true,
      { q with
        video_playlist := q.video_playlist ++ [(priority, q.counter, item)]
        counter := q.counter + 1 })
  else (some false, q)

/-- QueueingLoop.dequeue: `none` when closed (decorator) or empty; otherwise
removes the lowest valued entry and returns its item. -/
def dequeue (q : QueueingLoop) : Option String × QueueingLoop :=
  if q.queue_open = false then (none, q)
  else
    match heapMin q.video_playlist with
    | none => (none, q)
    | some m =>
      (some m.2.2, { q with video_playlist := removeFirst q.video_playlist m })

/-- QueueingLoop.peek: `none` when closed (decorator skips the body and
returns Python None); `some (none, none)` when empty; otherwise get_nowait
followed by put_nowait of the same entry (entry removed then appended), and
the (priority, item) pair is returned. -/
def peek (q : QueueingLoop) : Option (Option Nat × Option String) × QueueingLoop :=
  if q.queue_open = false then (none, q)
  else
    match heapMin q.video_playlist with
    | none => (some (none, none), q)
    | some m =>
      (some (some m.1, some m.2.2),
        { q with video_playlist := removeFirst q.video_playlist m ++ [m] })

/-- QueueingLoop.add_new_video: enqueue at fresh priority 2. -/
def add_new_video (q : QueueingLoop) (video_file : String) :
    Option Bool × QueueingLoop :=
  if q.queue_open = false then (none, q) else enqueue q video_file 2

/-- QueueingLoop.add_video_back_to_loop: enqueue at recirculated priority 3. -/
def add_video_back_to_loop (q : QueueingLoop) (video_file : String) :
    Option Bool × QueueingLoop :=
  if q.queue_open = false then (none, q) else enqueue q video_file 3

/-- QueueingLoop.get_next_video: peek; return None if the queue is empty or
the head priority is ≥ 3; otherwise dequeue, re-add the item at recirculated
priority when it is truthy (a non-empty string), and return it.  The
`(none, q1)` arm for a failed peek is unreachable here because the queue is
open. -/
def get_next_video (q : QueueingLoop) : Option String × QueueingLoop :=
  if q.queue_open = false then (none, q)
  else
    match peek q with
    | (none, q1) => (none, q1)
    | (some (pr, _), q1) =>
      match pr with
      | none => (none, q1)
      | some p =>
        if 3 ≤ p then (none, q1)
        else
          match dequeue q1 with
          | (none, q2) => (none, q2)
          | (some video_file, q2) =>
            if video_file = "" then (some video_file, q2)
            else (some video_file, (add_video_back_to_loop q2 video_file).2)

/-- QueueingLoop.clear_all: drains every entry; skipped by the decorator when
the queue is closed. -/
def clear_all (q : QueueingLoop) : QueueingLoop :=
  if q.queue_open = false then q else { q with video_playlist := [] }

/-- The state reached after get_next_video (used to express repeated calls). -/
def nextState (q : QueueingLoop) : QueueingLoop := (get_next_video q).2

end QueueingLoop

namespace OBSController

/-- The loop of OBSController.monitor_stream_status: each iteration polls the
stream-activity flag (`active t` is the flag returned by the poll with
`timer = t`), increments `timer`, breaks when `timer` has reached
`max_duration`, and otherwise breaks when the poll reported the stream
inactive.  The result is the final value of `timer`, i.e. the number of polls
performed. -/
def monitor_loop (active : Nat → Bool) (max_duration timer : Nat) : Nat :=
  if timer + 1 ≥ max_duration then timer + 1
  else if active timer then monitor_loop active max_duration (timer + 1)
  else timer + 1
termination_by max_duration - timer
decreasing_by simp_wf; omega

/-- OBSController.monitor_stream_status, as the number of polling ticks the
monitor performs before returning, given the activity flag reported by each
poll. -/
def monitor_stream_status (active : Nat → Bool) (max_duration : Nat) : Nat :=
  monitor_loop active max_duration 0

end OBSController

/-- Commands that ShowRunner.run_show issues against the OBS client (only the
two the claims mention are tracked). -/
inductive Ev
  | startStream
  | stopStream
  deriving DecidableEq, Repr

/-- How one of the awaited/externally-calling phases of the run_show try
block terminates when it does not succeed. -/
inductive FailKind
  | exn
  | cancel
  deriving DecidableEq, Repr

/-- The phases of the run_show try block that can raise: the show-API calls
before start_stream, the intro, the supervised main show, the outro. -/
inductive Phase
  | api
  | intro
  | mainshow
  | outro
  deriving DecidableEq, Repr

/-- How run_show itself terminates: normal return, or re-raised exception /
CancelledError. -/
inductive RunResult
  | returned
  | raisedExn
  | raisedCancel
  deriving DecidableEq, Repr

/-- The mutable fields of show_runner.ShowRunner (the OBS client itself is an
external collaborator and is represented by the command trace run_show
produces).  `show_start_time` holds datetime.now() as an abstract timestamp. -/
structure RunnerState where
  video_queue : QueueingLoop
  show_start_time : Option Nat
  is_running : Bool
  deriving DecidableEq, Repr

namespace ShowRunner

/-- ShowRunner.initialize_video_queue: opens the queue and enqueues every
video of the list at fresh priority (the boolean results are discarded). -/
def init_video_queue (q : QueueingLoop) (video_list : List String) :
    QueueingLoop :=
  video_list.foldl (fun acc v => (QueueingLoop.add_new_video acc v).2)
    { q with queue_open := true }

/-- ShowRunner.run_show.  `video_list = none` models the Python default
`video_list=None`; `now` models datetime.now() at the start of the call;
`outcome` states which phase of the try block (if any) raises, and whether it
raises an ordinary exception or asyncio.CancelledError.  The queue-consuming
effects of the supervised tasks inside run_main_show are abstracted (they act
on the queue concurrently and are not part of run_show's own control flow).
Returns the final ShowRunner state, the trace of tracked OBS commands, and
how the call terminates.  Faithful to the source: when `is_running` is
already true the code replaces video_list with the empty list `[]`, and the
guard that refuses to start compares against None only. -/
def run_show (st : RunnerState) (show_id : String) (max_duration : Nat)
    (video_list : Option (List String)) (now : Nat)
    (outcome : Option (Phase × FailKind)) :
    RunnerState × List Ev × RunResult :=
  let vl := if st.is_running then some ([] : List String) else video_list
  match vl with
  | none => (st, [], RunResult.returned)
  | some l =>
    -- is_running := True; show_start_time := now; then the try block runs,
    -- and the finally block issues stop_stream and resets both fields on
    -- every exit path.
    let q1 := init_video_queue st.video_queue l
    let evs : List Ev :=
      match outcome with
      | some (Phase.api, _) => []
      | _ => [Ev.startStream]
    let res : RunResult :=
      match outcome with
      | none => RunResult.returned
      | some (_, FailKind.exn) => RunResult.raisedExn
      | some (_, FailKind.cancel) => RunResult.raisedCancel
    ({ video_queue := q1, show_start_time := none, is_running := false },
      evs ++ [Ev.stopStream], res)

/-- ShowRunner.stop_show: closes the queue, then calls clear_all — whose
require_queue_open decorator now sees a closed queue. -/
def stop_show (st : RunnerState) : RunnerState :=
  { st with
    video_queue :=
      QueueingLoop.clear_all { st.video_queue with queue_open := false } }

end ShowRunner

/-- Operations the control surface may perform on an open queue: enqueue at
fresh priority (add_new_video), enqueue at recirculated priority
(add_video_back_to_loop), and dequeue. -/
inductive QOp
  | fresh (s : String)
  | recirc (s : String)
  | take
  deriving DecidableEq, Repr

/-- Apply one queue operation, keeping only the state. -/
def applyOp (q : QueueingLoop) : QOp → QueueingLoop
  | QOp.fresh s => (QueueingLoop.add_new_video q s).2
  | QOp.recirc s => (QueueingLoop.add_video_back_to_loop q s).2
  | QOp.take => (QueueingLoop.dequeue q).2

/-- Run a sequence of queue operations from a freshly opened queue of the
default capacity. -/
def runOps (ops : List QOp) : QueueingLoop :=
  ops.foldl applyOp ⟨[], 0, true, 20⟩

/-- Reachable-state invariant of the queue: open, every stored counter is
below the next counter to be assigned, and counters strictly increase in
insertion order. -/
def QueueWF (q : QueueingLoop) : Prop :=
  q.queue_open = true ∧
  (∀ t ∈ q.video_playlist, t.2.1 < q.counter) ∧
  q.video_playlist.Pairwise (fun a b => a.2.1 < b.2.1)

theorem natsLe_cons_iff (a b : Nat) (as bs : List Nat) :
    natsLe (a :: as) (b :: bs) = true ↔
      a < b ∨ (a = b ∧ natsLe as bs = true) := by
  simp only [natsLe]
  split_ifs with h1 h2
  · simp [h1]
  · constructor
    · intro h; exact absurd h (by simp)
    · rintro (h | ⟨h, _⟩) <;> omega
  · have hab : a = b := by omega
    subst hab
    simp

theorem natsLe_refl : ∀ x : List Nat, natsLe x x = true
  | [] => rfl
  | a :: as => by
    rw [natsLe_cons_iff]
    exact Or.inr ⟨rfl, natsLe_refl as⟩

theorem natsLe_total : ∀ x y : List Nat, natsLe x y = true ∨ natsLe y x = true
  | [], _ => Or.inl rfl
  | _ :: _, [] => Or.inr rfl
  | a :: as, b :: bs => by
    rw [natsLe_cons_iff, natsLe_cons_iff]
    rcases Nat.lt_trichotomy a b with h | rfl | h
    · exact Or.inl (Or.inl h)
    · rcases natsLe_total as bs with ih | ih
      · exact Or.inl (Or.inr ⟨rfl, ih⟩)
      · exact Or.inr (Or.inr ⟨rfl, ih⟩)
    · exact Or.inr (Or.inl h)

theorem natsLe_trans : ∀ x y z : List Nat,
    natsLe x y = true → natsLe y z = true → natsLe x z = true
  | [], _, _, _, _ => rfl
  | _ :: _, [], _, hxy, _ => by simp [natsLe] at hxy
  | _ :: _, _ :: _, [], _, hyz => by simp [natsLe] at hyz
  | a :: as, b :: bs, c :: cs, hxy, hyz => by
    rw [natsLe_cons_iff] at hxy hyz ⊢
    rcases hxy with h | ⟨rfl, h⟩
    · rcases hyz with h' | ⟨rfl, _⟩
      · exact Or.inl (Nat.lt_trans h h')
      · exact Or.inl h
    · rcases hyz with h' | ⟨rfl, h'⟩
      · exact Or.inl h'
      · exact Or.inr ⟨rfl, natsLe_trans as bs cs h h'⟩

theorem strLe_refl (s : String) : strLe s s = true := natsLe_refl _

theorem strLe_total (s t : String) : strLe s t = true ∨ strLe t s = true :=
  natsLe_total _ _

theorem strLe_trans (s t u : String) (h1 : strLe s t = true)
    (h2 : strLe t u = true) : strLe s u = true :=
  natsLe_trans _ _ _ h1 h2

theorem tripLe_iff (a b : Nat × Nat × String) :
    tripLe a b = true ↔
      a.1 < b.1 ∨ (a.1 = b.1 ∧
        (a.2.1 < b.2.1 ∨ (a.2.1 = b.2.1 ∧ strLe a.2.2 b.2.2 = true))) := by
  unfold tripLe
  split_ifs with h1 h2 h3 h4
  · simp [h1]
  · constructor
    · intro h; exact absurd h (by simp)
    · rintro (h | ⟨h, _⟩) <;> omega
  · have hab : a.1 = b.1 := by omega
    simp [hab, h3]
  · constructor
    · intro h; exact absurd h (by simp)
    · rintro (h | ⟨h, h' | ⟨h', _⟩⟩) <;> omega
  · have e1 : a.1 = b.1 := by omega
    have e2 : a.2.1 = b.2.1 := by omega
    simp [e1, e2]

theorem tripLe_refl (a : Nat × Nat × String) : tripLe a a = true := by
  rw [tripLe_iff]
  exact Or.inr ⟨rfl, Or.inr ⟨rfl, strLe_refl _⟩⟩

theorem tripLe_total (a b : Nat × Nat × String) :
    tripLe a b = true ∨ tripLe b a = true := by
  rw [tripLe_iff, tripLe_iff]
  rcases Nat.lt_trichotomy a.1 b.1 with h | h | h
  · exact Or.inl (Or.inl h)
  · rcases Nat.lt_trichotomy a.2.1 b.2.1 with h' | h' | h'
    · exact Or.inl (Or.inr ⟨h, Or.inl h'⟩)
    · rcases strLe_total a.2.2 b.2.2 with hs | hs
      · exact Or.inl (Or.inr ⟨h, Or.inr ⟨h', hs⟩⟩)
      · exact Or.inr (Or.inr ⟨h.symm, Or.inr ⟨h'.symm, hs⟩⟩)
    · exact Or.inr (Or.inr ⟨h.symm, Or.inl h'⟩)
  · exact Or.inr (Or.inl h)

theorem tripLe_trans {a b c : Nat × Nat × String} (hab : tripLe a b = true)
    (hbc : tripLe b c = true) : tripLe a c = true := by
  rw [tripLe_iff] at hab hbc ⊢
  rcases hab with h | ⟨e1, hab⟩
  · rcases hbc with h' | ⟨e1', _⟩
    · exact Or.inl (by omega)
    · exact Or.inl (by omega)
  · rcases hbc with h' | ⟨e1', hbc⟩
    · exact Or.inl (by omega)
    · refine Or.inr ⟨by omega, ?_⟩
      rcases hab with h2 | ⟨e2, hab⟩
      · rcases hbc with h2' | ⟨e2', _⟩
        · exact Or.inl (by omega)
        · exact Or.inl (by omega)
      · rcases hbc with h2' | ⟨e2', hbc⟩
        · exact Or.inl (by omega)
        · exact Or.inr ⟨by omega, strLe_trans _ _ _ hab hbc⟩

theorem heapMin_spec : ∀ l : List (Nat × Nat × String),
    (l = [] ∧ heapMin l = none) ∨
      ∃ m, heapMin l = some m ∧ m ∈ l ∧ ∀ y ∈ l, tripLe m y = true := by
  intro l
  induction l with
  | nil => exact Or.inl ⟨rfl, rfl⟩
  | cons x xs ih =>
    right
    rcases ih with ⟨rfl, hn⟩ | ⟨m, hm, hmem, hle⟩
    · refine ⟨x, rfl, List.mem_cons_self x [], ?_⟩
      intro y hy
      rcases List.mem_cons.mp hy with rfl | hy'
      · exact tripLe_refl _
      · exact absurd hy' (List.not_mem_nil y)
    · by_cases hc : tripLe x m = true
      · refine ⟨x, by simp [heapMin, hm, hc], List.mem_cons_self x xs, ?_⟩
        intro y hy
        rcases List.mem_cons.mp hy with rfl | hy'
        · exact tripLe_refl _
        · exact tripLe_trans hc (hle y hy')
      · refine ⟨m, by simp [heapMin, hm, hc], List.mem_cons_of_mem x hmem, ?_⟩
        intro y hy
        rcases List.mem_cons.mp hy with rfl | hy'
        · rcases tripLe_total y m with ht | ht
          · exact absurd ht hc
          · exact ht
        · exact hle y hy'

theorem heapMin_mem {l : List (Nat × Nat × String)} {m : Nat × Nat × String}
    (h : heapMin l = some m) : m ∈ l := by
  rcases heapMin_spec l with ⟨rfl, hn⟩ | ⟨m', hm', hmem, _⟩
  · rw [hn] at h; cases h
  · rw [hm'] at h; cases h; exact hmem

theorem heapMin_min {l : List (Nat × Nat × String)} {m : Nat × Nat × String}
    (h : heapMin l = some m) : ∀ y ∈ l, tripLe m y = true := by
  rcases heapMin_spec l with ⟨rfl, hn⟩ | ⟨m', hm', _, hle⟩
  · rw [hn] at h; cases h
  · rw [hm'] at h; cases h; exact hle

theorem counters_injective {l : List (Nat × Nat × String)}
    (hnd : l.Pairwise (fun a b => a.2.1 ≠ b.2.1)) :
    ∀ {x y : Nat × Nat × String}, x ∈ l → y ∈ l → x.2.1 = y.2.1 → x = y := by
  induction l with
  | nil => intro x y hx _ _; exact absurd hx (List.not_mem_nil x)
  | cons z zs ih =>
    intro x y hx hy hxy
    obtain ⟨hz, hzs⟩ := List.pairwise_cons.mp hnd
    rcases List.mem_cons.mp hx with rfl | hx'
    · rcases List.mem_cons.mp hy with rfl | hy'
      · rfl
      · exact absurd hxy (hz y hy')
    · rcases List.mem_cons.mp hy with rfl | hy'
      · exact absurd hxy.symm (hz x hx')
      · exact ih hzs hx' hy' hxy

theorem heapMin_eq_of_min {l : List (Nat × Nat × String)}
    {m : Nat × Nat × String} (hmem : m ∈ l)
    (hmin : ∀ y ∈ l, tripLe m y = true)
    (hnd : l.Pairwise (fun a b => a.2.1 ≠ b.2.1)) : heapMin l = some m := by
  rcases heapMin_spec l with ⟨rfl, _⟩ | ⟨x, hx, hxmem, hxle⟩
  · exact absurd hmem (List.not_mem_nil m)
  · rw [hx]
    have h1 := (tripLe_iff x m).mp (hxle m hmem)
    have h2 := (tripLe_iff m x).mp (hmin x hxmem)
    have e : x.2.1 = m.2.1 := by
      rcases h1 with h | ⟨e1, h | ⟨e2, _⟩⟩ <;>
        rcases h2 with h' | ⟨e1', h' | ⟨e2', _⟩⟩ <;> omega
    exact congrArg some (counters_injective hnd hxmem hmem e)

theorem removeFirst_sublist :
    ∀ (l : List (Nat × Nat × String)) (x : Nat × Nat × String),
      (removeFirst l x).Sublist l
  | [], _ => List.Sublist.refl _
  | y :: ys, x => by
    simp only [removeFirst]
    split
    · exact List.sublist_cons_self y ys
    · exact List.Sublist.cons₂ y (removeFirst_sublist ys x)

theorem perm_cons_removeFirst :
    ∀ {l : List (Nat × Nat × String)} {x : Nat × Nat × String}, x ∈ l →
      l.Perm (x :: removeFirst l x)
  | [], x, h => absurd h (List.not_mem_nil x)
  | y :: ys, x, h => by
    simp only [removeFirst]
    by_cases he : y = x
    · subst he
      rw [if_pos rfl]
    · rw [if_neg he]
      rcases List.mem_cons.mp h with rfl | h'
      · exact absurd rfl he
      · exact ((perm_cons_removeFirst h').cons y).trans (List.Perm.swap x y _)

theorem enqueue_wf (q : QueueingLoop) (s : String) (p : Nat)
    (h : QueueWF q) : QueueWF (QueueingLoop.enqueue q s p).2 := by
  obtain ⟨ho, hb, hp⟩ := h
  unfold QueueingLoop.enqueue
  rw [ho]
  by_cases hc : q.max_size = 0 ∨ q.video_playlist.length < q.max_size
  · rw [if_neg (by simp), if_pos hc]
    refine ⟨rfl, ?_, ?_⟩
    · intro t ht
      rcases List.mem_append.mp ht with ht' | ht'
      · exact Nat.lt_succ_of_lt (hb t ht')
      · rcases List.mem_singleton.mp ht' with rfl
        exact Nat.lt_succ_self _
    · rw [List.pairwise_append]
      refine ⟨hp, List.pairwise_singleton _ _, ?_⟩
      intro a ha b hb'
      rcases List.mem_singleton.mp hb' with rfl
      exact hb a ha
  · rw [if_neg (by simp), if_neg hc]
    exact ⟨ho, hb, hp⟩

theorem dequeue_wf (q : QueueingLoop) (h : QueueWF q) :
    QueueWF (QueueingLoop.dequeue q).2 := by
  obtain ⟨ho, hb, hp⟩ := h
  unfold QueueingLoop.dequeue
  rw [ho]
  cases hm : heapMin q.video_playlist with
  | none => exact ⟨ho, hb, hp⟩
  | some m =>
    refine ⟨rfl, ?_, hp.sublist (removeFirst_sublist _ _)⟩
    intro t ht
    exact hb t ((removeFirst_sublist _ _).subset ht)

theorem applyOp_wf (q : QueueingLoop) (op : QOp) (h : QueueWF q) :
    QueueWF (applyOp q op) := by
  have ho := h.1
  cases op with
  | fresh s =>
    show QueueWF (QueueingLoop.add_new_video q s).2
    unfold QueueingLoop.add_new_video
    rw [ho, if_neg (by simp)]
    exact enqueue_wf q s 2 h
  | recirc s =>
    show QueueWF (QueueingLoop.add_video_back_to_loop q s).2
    unfold QueueingLoop.add_video_back_to_loop
    rw [ho, if_neg (by simp)]
    exact enqueue_wf q s 3 h
  | take => exact dequeue_wf q h

theorem foldl_applyOp_wf :
    ∀ (ops : List QOp) (q : QueueingLoop), QueueWF q →
      QueueWF (ops.foldl applyOp q)
  | [], _, h => h
  | op :: ops, q, h => foldl_applyOp_wf ops _ (applyOp_wf q op h)

theorem runOps_wf (ops : List QOp) : QueueWF (runOps ops) :=
  foldl_applyOp_wf ops _ ⟨rfl, by simp, List.Pairwise.nil⟩

/-- C6: after close() (queue_open = false), every subsequent enqueue (at
either priority), takeNext (dequeue) and peek call — and get_next_video —
is a no-op that returns Python None, and the queue state (in particular the
multiset of stored items) is unchanged. -/
theorem C6_closed_noop (q : QueueingLoop) (i j : String) (p : Nat)
    (h : q.queue_open = false) :
    QueueingLoop.enqueue q i p = (none, q) ∧
    QueueingLoop.add_new_video q i = (none, q) ∧
    QueueingLoop.add_video_back_to_loop q j = (none, q) ∧
    QueueingLoop.dequeue q = (none, q) ∧
    QueueingLoop.peek q = (none, q) ∧
    QueueingLoop.get_next_video q = (none, q) := by
  unfold QueueingLoop.enqueue QueueingLoop.add_new_video
    QueueingLoop.add_video_back_to_loop QueueingLoop.dequeue
    QueueingLoop.peek QueueingLoop.get_next_video
  simp [h]

theorem C6_witness :
    QueueingLoop.enqueue ⟨[(2, 0, "a")], 1, false, 20⟩ "x" 5 =
      (none, ⟨[(2, 0, "a")], 1, false, 20⟩) ∧
    QueueingLoop.add_new_video ⟨[(2, 0, "a")], 1, false, 20⟩ "x" =
      (none, ⟨[(2, 0, "a")], 1, false, 20⟩) ∧
    QueueingLoop.add_video_back_to_loop ⟨[(2, 0, "a")], 1, false, 20⟩ "y" =
      (none, ⟨[(2, 0, "a")], 1, false, 20⟩) ∧
    QueueingLoop.dequeue ⟨[(2, 0, "a")], 1, false, 20⟩ =
      (none, ⟨[(2, 0, "a")], 1, false, 20⟩) ∧
    QueueingLoop.peek ⟨[(2, 0, "a")], 1, false, 20⟩ =
      (none, ⟨[(2, 0, "a")], 1, false, 20⟩) ∧
    QueueingLoop.get_next_video ⟨[(2, 0, "a")], 1, false, 20⟩ =
      (none, ⟨[(2, 0, "a")], 1, false, 20⟩) :=
  C6_closed_noop ⟨[(2, 0, "a")], 1, false, 20⟩ "x" "y" 5 rfl

/-- C8: an enqueue attempted on an open queue that is at capacity returns
False to the caller (it does not raise — put_nowait's Full exception is
caught), and the queue state is unchanged.  This holds for the raw enqueue
and for both priority classes (add_new_video / add_video_back_to_loop). -/
theorem C8_enqueue_at_capacity (q : QueueingLoop) (i : String) (p : Nat)
    (hopen : q.queue_open = true) (hpos : 0 < q.max_size)
    (hfull : q.max_size ≤ q.video_playlist.length) :
    QueueingLoop.enqueue q i p = (some false, q) ∧
    QueueingLoop.add_new_video q i = (some false, q) ∧
    QueueingLoop.add_video_back_to_loop q i = (some false, q) := by
  have hc : ¬ (q.max_size = 0 ∨ q.video_playlist.length < q.max_size) := by
    omega
  unfold QueueingLoop.add_new_video QueueingLoop.add_video_back_to_loop
    QueueingLoop.enqueue
  simp [hopen, hc]

theorem C8_witness :
    QueueingLoop.enqueue ⟨[(2, 0, "a")], 1, true, 1⟩ "b" 5 =
      (some false, ⟨[(2, 0, "a")], 1, true, 1⟩) ∧
    QueueingLoop.add_new_video ⟨[(2, 0, "a")], 1, true, 1⟩ "b" =
      (some false, ⟨[(2, 0, "a")], 1, true, 1⟩) ∧
    QueueingLoop.add_video_back_to_loop ⟨[(2, 0, "a")], 1, true, 1⟩ "b" =
      (some false, ⟨[(2, 0, "a")], 1, true, 1⟩) :=
  C8_enqueue_at_capacity ⟨[(2, 0, "a")], 1, true, 1⟩ "b" 5 rfl (by decide)
    (by decide)

/-- C5: after any sequence of enqueue-fresh / enqueue-recirculated (and
dequeue) calls on an open queue, a dequeue that finds the lowest valued heap
entry (p, c, s) returns s; that entry is stored and its (priority, sequence)
key is lexicographically smallest among the stored (enqueued and not yet
removed) items; sequence counters are assigned monotonically at insertion,
so counters strictly increase in insertion order (equal-priority items come
out in FIFO order). -/
theorem C5_dequeue_min (ops : List QOp) (p c : Nat) (s : String)
    (h : heapMin (runOps ops).video_playlist = some (p, c, s)) :
    (QueueingLoop.dequeue (runOps ops)).1 = some s ∧
    (QueueingLoop.dequeue (runOps ops)).2.video_playlist =
      removeFirst (runOps ops).video_playlist (p, c, s) ∧
    (p, c, s) ∈ (runOps ops).video_playlist ∧
    (∀ t ∈ (runOps ops).video_playlist,
      p < t.1 ∨ (p = t.1 ∧ c ≤ t.2.1)) ∧
    (∀ t ∈ (runOps ops).video_playlist, t.2.1 < (runOps ops).counter) ∧
    (runOps ops).video_playlist.Pairwise (fun a b => a.2.1 < b.2.1) := by
  obtain ⟨ho, hb, hp⟩ := runOps_wf ops
  have hdeq : QueueingLoop.dequeue (runOps ops) =
      (some s,
        { runOps ops with
          video_playlist := removeFirst (runOps ops).video_playlist (p, c, s) }) := by
    unfold QueueingLoop.dequeue
    rw [ho, if_neg (by simp), h]
    simp [ho]
  refine ⟨by rw [hdeq], by rw [hdeq], heapMin_mem h, ?_, hb, hp⟩
  intro t ht
  have := (tripLe_iff (p, c, s) t).mp (heapMin_min h t ht)
  rcases this with h1 | ⟨e1, h2 | ⟨e2, _⟩⟩
  · exact Or.inl h1
  · exact Or.inr ⟨e1, Nat.le_of_lt h2⟩
  · exact Or.inr ⟨e1, Nat.le_of_eq e2⟩

theorem C5_witness :
    (QueueingLoop.dequeue (runOps [QOp.fresh "b", QOp.fresh "a"])).1 =
      some "b" :=
  (C5_dequeue_min [QOp.fresh "b", QOp.fresh "a"] 2 0 "b" (by decide)).1

/-- C3 counterexample: for a queue containing exactly one item "a" at fresh
priority, the first takeNextAndRecirculate (get_next_video) call returns
"a", but the second call does not — it returns none, because the item now
sits at recirculated priority 3 and get_next_video refuses heads of
priority ≥ 3.  This refutes the claim that every repeated call yields the
item. -/
theorem C3_counterexample :
    (QueueingLoop.get_next_video ⟨[(2, 0, "a")], 1, true, 20⟩).1 = some "a" ∧
    (QueueingLoop.get_next_video
      (QueueingLoop.get_next_video ⟨[(2, 0, "a")], 1, true, 20⟩).2).1 ≠
        some "a" := by
  decide

/-- C3 (amended): for a queue containing exactly one (non-empty) item A at
fresh priority, the first get_next_video call returns A and re-inserts it at
recirculated priority 3; every subsequent call returns none and leaves the
state fixed, so A is never lost and never duplicated — the underlying
structure always holds exactly one entry for A. -/
theorem C3_single_item_recirculation (A : String) (c k m : Nat)
    (hA : A ≠ "") :
    QueueingLoop.get_next_video ⟨[(2, c, A)], k, true, m⟩ =
      (some A, ⟨[(3, k, A)], k + 1, true, m⟩) ∧
    QueueingLoop.get_next_video ⟨[(3, k, A)], k + 1, true, m⟩ =
      (none, ⟨[(3, k, A)], k + 1, true, m⟩) ∧
    ∀ n : Nat, QueueingLoop.nextState^[n] ⟨[(3, k, A)], k + 1, true, m⟩ =
      ⟨[(3, k, A)], k + 1, true, m⟩ := by
  have hcap : (m = 0 ∨ 0 < m) := Nat.eq_zero_or_pos m
  have h1 : QueueingLoop.get_next_video ⟨[(2, c, A)], k, true, m⟩ =
      (some A, ⟨[(3, k, A)], k + 1, true, m⟩) := by
    unfold QueueingLoop.get_next_video QueueingLoop.peek QueueingLoop.dequeue
      QueueingLoop.add_video_back_to_loop QueueingLoop.enqueue
    simp [heapMin, removeFirst, hA, hcap]
  have h2 : QueueingLoop.get_next_video ⟨[(3, k, A)], k + 1, true, m⟩ =
      (none, ⟨[(3, k, A)], k + 1, true, m⟩) := by
    unfold QueueingLoop.get_next_video QueueingLoop.peek
    simp [heapMin, removeFirst]
  refine ⟨h1, h2, fun n => Function.iterate_fixed ?_ n⟩
  show (QueueingLoop.get_next_video _).2 = _
  rw [h2]

theorem C3_witness :
    QueueingLoop.get_next_video ⟨[(2, 0, "a")], 1, true, 20⟩ =
      (some "a", ⟨[(3, 1, "a")], 2, true, 20⟩) :=
  (C3_single_item_recirculation "a" 0 1 20 (by decide)).1

/-- C1 (code divergence): a run_show call made while a show is already
Running (is_running = true, started_at = some 100) is not a no-op.  The
code replaces video_list with the empty list [], which is not None, so the
`video_list is None` guard falls through: the queue is reopened, the
obs.start_stream() call is issued, and the run proceeds to its finally
block, which overwrites show_start_time (some 100 becomes none) and resets
is_running — stomping the state of the show that was already running. -/
theorem C1_second_start_not_noop :
    (ShowRunner.run_show ⟨⟨[(2, 0, "v0")], 1, true, 20⟩, some 100, true⟩
      "show2" 3600 (some ["w"]) 200 none).2.1 =
        [Ev.startStream, Ev.stopStream] ∧
    (ShowRunner.run_show ⟨⟨[(2, 0, "v0")], 1, true, 20⟩, some 100, true⟩
      "show2" 3600 (some ["w"]) 200 none).1.show_start_time = none ∧
    (ShowRunner.run_show ⟨⟨[(2, 0, "v0")], 1, true, 20⟩, some 100, true⟩
      "show2" 3600 (some ["w"]) 200 none).1.is_running = false := by
  decide

/-- C2 (code divergence): stop_show on a runner whose open queue holds one
pending item closes the queue but does not drain it: clear_all is guarded by
require_queue_open and the queue was closed first, so the pending item
(2, 0, "a") is still stored after stop_show returns. -/
theorem C2_stop_show_leaves_items :
    (ShowRunner.stop_show
      ⟨⟨[(2, 0, "a")], 1, true, 20⟩, some 0, true⟩).video_queue.video_playlist =
        [(2, 0, "a")] ∧
    (ShowRunner.stop_show
      ⟨⟨[(2, 0, "a")], 1, true, 20⟩, some 0, true⟩).video_queue.queue_open =
        false := by
  decide

/-- C4 (code divergence): a start with video_list = [] on an Idle runner is
not refused.  The guard compares video_list against None only, so the empty
list passes it: the queue is opened and the obs.start_stream() call is
issued — the run begins instead of being refused. -/
theorem C4_empty_list_starts_run :
    (ShowRunner.run_show ⟨QueueingLoop.init, none, false⟩ "s" 3600 (some [])
      50 none).2.1 = [Ev.startStream, Ev.stopStream] ∧
    (ShowRunner.run_show ⟨QueueingLoop.init, none, false⟩ "s" 3600 (some [])
      50 none).1.video_queue.queue_open = true := by
  decide

/-- C9: whenever a run actually begins (the call is not the early
no-videos return, i.e. the runner was already Running or video_list is not
None), run_show's finally block runs on every exit path — normal return,
exception, or cancellation — so the final state has is_running = false and
show_start_time = none, and the stop-stream command is issued. -/
theorem C9_run_resets_state (st : RunnerState) (show_id : String)
    (max_duration : Nat) (video_list : Option (List String)) (now : Nat)
    (outcome : Option (Phase × FailKind))
    (h : st.is_running = true ∨ video_list ≠ none) :
    (ShowRunner.run_show st show_id max_duration video_list now
      outcome).1.is_running = false ∧
    (ShowRunner.run_show st show_id max_duration video_list now
      outcome).1.show_start_time = none ∧
    Ev.stopStream ∈ (ShowRunner.run_show st show_id max_duration video_list
      now outcome).2.1 := by
  unfold ShowRunner.run_show
  cases hr : st.is_running with
  | false =>
    cases video_list with
    | none =>
      rcases h with h' | h'
      · rw [hr] at h'; cases h'
      · exact absurd rfl h'
    | some l =>
      refine ⟨by simp [hr], by simp [hr], ?_⟩
      simp only [hr]
      exact List.mem_append_right _ (List.mem_singleton.mpr rfl)
  | true =>
    refine ⟨by simp [hr], by simp [hr], ?_⟩
    simp only [hr]
    exact List.mem_append_right _ (List.mem_singleton.mpr rfl)

theorem C9_witness :
    (ShowRunner.run_show ⟨QueueingLoop.init, none, false⟩ "s" 3600
      (some ["v"]) 7 none).1.is_running = false ∧
    (ShowRunner.run_show ⟨QueueingLoop.init, none, false⟩ "s" 3600
      (some ["v"]) 7 none).1.show_start_time = none ∧
    Ev.stopStream ∈ (ShowRunner.run_show ⟨QueueingLoop.init, none, false⟩
      "s" 3600 (some ["v"]) 7 none).2.1 :=
  C9_run_resets_state ⟨QueueingLoop.init, none, false⟩ "s" 3600 (some ["v"])
    7 none (Or.inr (by decide))

theorem monitor_loop_spec : ∀ (fuel : Nat) (active : Nat → Bool)
    (md t : Nat), md - t ≤ fuel → t < md →
    t < OBSController.monitor_loop active md t ∧
    OBSController.monitor_loop active md t ≤ md ∧
    (OBSController.monitor_loop active md t = md ∨
      active (OBSController.monitor_loop active md t - 1) = false) ∧
    ∀ j, t ≤ j → j + 1 < OBSController.monitor_loop active md t →
      active j = true
  | 0, _, md, t, hf, ht => absurd ht (by omega)
  | fuel + 1, active, md, t, hf, ht => by
    by_cases h1 : t + 1 ≥ md
    · have heq : OBSController.monitor_loop active md t = t + 1 := by
        unfold OBSController.monitor_loop
        rw [if_pos h1]
      rw [heq]
      refine ⟨by omega, by omega, Or.inl (by omega), ?_⟩
      intro j hj hj'
      exact absurd hj' (by omega)
    · by_cases h2 : active t = true
      · have heq : OBSController.monitor_loop active md t =
            OBSController.monitor_loop active md (t + 1) := by
          conv_lhs => unfold OBSController.monitor_loop
          rw [if_neg h1, if_pos h2]
        obtain ⟨ih1, ih2, ih3, ih4⟩ :=
          monitor_loop_spec fuel active md (t + 1) (by omega) (by omega)
        rw [heq]
        refine ⟨by omega, ih2, ih3, ?_⟩
        intro j hj hj'
        rcases Nat.eq_or_lt_of_le hj with rfl | hj2
        · exact h2
        · exact ih4 j (by omega) hj'
      · have heq : OBSController.monitor_loop active md t = t + 1 := by
          unfold OBSController.monitor_loop
          rw [if_neg h1, if_neg h2]
        rw [heq]
        refine ⟨by omega, by omega, Or.inr ?_, ?_⟩
        · simp only [Nat.add_sub_cancel]
          simpa using h2
        · intro j hj hj'
          exact absurd hj' (by omega)

/-- C7 counterexample: with max_duration = 0 the monitor still performs one
polling tick — get_stream_status is called once, timer becomes 1 ≥ 0, and
the loop breaks — so it does not terminate within "at most 0 ticks" as the
universally quantified claim requires. -/
theorem C7_counterexample :
    OBSController.monitor_stream_status (fun _ => true) 0 = 1 ∧
    ¬ OBSController.monitor_stream_status (fun _ => true) 0 ≤ 0 := by
  have h : OBSController.monitor_stream_status (fun _ => true) 0 = 1 := by
    unfold OBSController.monitor_stream_status OBSController.monitor_loop
    norm_num
  exact ⟨h, by omega⟩

/-- C7 (amended): for every max_duration n ≥ 1, the health monitor
terminates after at most n polling ticks, and it exits exactly at the
duration cap or at the first poll that reports the stream inactive,
whichever comes first: the tick count k satisfies k ≤ n, the exit is due to
k = n or to the last poll reading false, and every earlier poll read true. -/
theorem C7_monitor_bounded (active : Nat → Bool) (n : Nat) (h : 1 ≤ n) :
    OBSController.monitor_stream_status active n ≤ n ∧
    (OBSController.monitor_stream_status active n = n ∨
      active (OBSController.monitor_stream_status active n - 1) = false) ∧
    ∀ j, j + 1 < OBSController.monitor_stream_status active n →
      active j = true := by
  obtain ⟨_, h2, h3, h4⟩ := monitor_loop_spec n active n 0 (by omega)
    (by omega)
  exact ⟨h2, h3, fun j hj => h4 j (Nat.zero_le j) hj⟩

theorem C7_witness :
    OBSController.monitor_stream_status (fun _ => true) 5 ≤ 5 :=
  (C7_monitor_bounded (fun _ => true) 5 (by decide)).1

theorem coe_removeFirst {l : List (Nat × Nat × String)}
    {m : Nat × Nat × String} (hmem : m ∈ l) :
    ((removeFirst l m : List (Nat × Nat × String)) :
        Multiset (Nat × Nat × String)) =
      (l : Multiset (Nat × Nat × String)).erase m := by
  have h1 : (l : Multiset (Nat × Nat × String)) =
      m ::ₘ (removeFirst l m : List (Nat × Nat × String)) := by
    rw [Multiset.cons_coe]
    exact Multiset.coe_eq_coe.mpr (perm_cons_removeFirst hmem)
  rw [h1, Multiset.erase_cons_head]

/-- C10: on an open queue whose head (lowest valued) entry (p, c, v) has
priority below the recirculated tier, get_next_video removes that entry and
returns its reference v.  When v is the empty string — which Python treats
as falsy in `if video_file:` — the item is not re-inserted: it is
permanently dropped from the queue.  Every non-empty reference is re-added
at recirculated priority 3 with the next counter.  (The distinct-counter
hypothesis is the reachable-state invariant of the insertion counter; the
capacity hypothesis reflects that the stored entries never exceed
max_size.) -/
theorem C10_empty_reference_dropped (q : QueueingLoop) (p c : Nat)
    (v : String)
    (hopen : q.queue_open = true)
    (hmin : heapMin q.video_playlist = some (p, c, v))
    (hp : p < 3)
    (hcap : q.max_size = 0 ∨ q.video_playlist.length ≤ q.max_size)
    (hnd : q.video_playlist.Pairwise (fun a b => a.2.1 ≠ b.2.1)) :
    (QueueingLoop.get_next_video q).1 = some v ∧
    (v = "" →
      ((QueueingLoop.get_next_video q).2.video_playlist :
          Multiset (Nat × Nat × String)) =
        (q.video_playlist : Multiset (Nat × Nat × String)).erase (p, c, v)) ∧
    (v ≠ "" →
      ((QueueingLoop.get_next_video q).2.video_playlist :
          Multiset (Nat × Nat × String)) =
        (3, q.counter, v) ::ₘ
          (q.video_playlist : Multiset (Nat × Nat × String)).erase (p, c, v)) := by
  have hmem : (p, c, v) ∈ q.video_playlist := heapMin_mem hmin
  set l1 : List (Nat × Nat × String) :=
    removeFirst q.video_playlist (p, c, v) ++ [(p, c, v)] with hl1
  have hpeek : QueueingLoop.peek q =
      (some (some p, some v), { q with video_playlist := l1 }) := by
    unfold QueueingLoop.peek
    rw [hopen, if_neg (by simp), hmin]
  have hperm : l1.Perm q.video_playlist :=
    (List.perm_append_singleton _ _).trans (perm_cons_removeFirst hmem).symm
  have hmem1 : (p, c, v) ∈ l1 :=
    List.mem_append_right _ (List.mem_singleton.mpr rfl)
  have hle1 : ∀ y ∈ l1, tripLe (p, c, v) y = true := fun y hy =>
    heapMin_min hmin y (hperm.subset hy)
  have hnd1 : l1.Pairwise (fun a b => a.2.1 ≠ b.2.1) :=
    (List.Perm.pairwise_iff (fun h => Ne.symm h) hperm).mpr hnd
  have hmin1 : heapMin l1 = some (p, c, v) :=
    heapMin_eq_of_min hmem1 hle1 hnd1
  have hdeq : QueueingLoop.dequeue { q with video_playlist := l1 } =
      (some v, { q with video_playlist := removeFirst l1 (p, c, v) }) := by
    unfold QueueingLoop.dequeue
    simp only [hopen, hmin1]
    rw [if_neg (by simp)]
  have hcoe1 : (l1 : Multiset (Nat × Nat × String)) =
      (q.video_playlist : Multiset (Nat × Nat × String)) :=
    Multiset.coe_eq_coe.mpr hperm
  have hcoe2 : ((removeFirst l1 (p, c, v) : List (Nat × Nat × String)) :
      Multiset (Nat × Nat × String)) =
      (q.video_playlist : Multiset (Nat × Nat × String)).erase (p, c, v) := by
    rw [coe_removeFirst hmem1, hcoe1]
  by_cases hv : v = ""
  · subst hv
    have hgnv : QueueingLoop.get_next_video q =
        (some "", { q with video_playlist := removeFirst l1 (p, c, "") }) := by
      unfold QueueingLoop.get_next_video
      rw [if_neg (by simp [hopen]), hpeek]
      dsimp only
      rw [if_neg (by omega), hdeq]
      dsimp only
      rw [if_pos rfl]
    refine ⟨by rw [hgnv], fun _ => ?_, fun hne => absurd rfl hne⟩
    rw [hgnv]
    exact hcoe2
  · have hlen1 : l1.length = q.video_playlist.length := hperm.length_eq
    have hlen2 : (removeFirst l1 (p, c, v)).length + 1 = l1.length := by
      have h := (perm_cons_removeFirst hmem1).length_eq
      simpa using h.symm
    have hq2cap : q.max_size = 0 ∨
        (removeFirst l1 (p, c, v)).length < q.max_size := by
      rcases hcap with h | h
      · exact Or.inl h
      · right
        have hne : q.video_playlist ≠ [] := List.ne_nil_of_mem hmem
        have hpos : 0 < q.video_playlist.length := List.length_pos.mpr hne
        omega
    have henq : QueueingLoop.add_video_back_to_loop
        { q with video_playlist := removeFirst l1 (p, c, v) } v =
        (some true,
          { q with
            video_playlist :=
              removeFirst l1 (p, c, v) ++ [(3, q.counter, v)]
            counter := q.counter + 1 }) := by
      unfold QueueingLoop.add_video_back_to_loop QueueingLoop.enqueue
      simp only [hopen]
      rw [if_neg (by simp), if_neg (by simp), if_pos hq2cap]
    have hgnv : QueueingLoop.get_next_video q =
        (some v,
          { q with
            video_playlist :=
              removeFirst l1 (p, c, v) ++ [(3, q.counter, v)]
            counter := q.counter + 1 }) := by
      unfold QueueingLoop.get_next_video
      rw [if_neg (by simp [hopen]), hpeek]
      dsimp only
      rw [if_neg (by omega), hdeq]
      dsimp only
      rw [if_neg hv, henq]
    refine ⟨by rw [hgnv], fun he => absurd he hv, fun _ => ?_⟩
    rw [hgnv]
    show ((removeFirst l1 (p, c, v) ++ [(3, q.counter, v)] :
        List (Nat × Nat × String)) : Multiset (Nat × Nat × String)) = _
    calc ((removeFirst l1 (p, c, v) ++ [(3, q.counter, v)] :
          List (Nat × Nat × String)) : Multiset (Nat × Nat × String))
        = (((3, q.counter, v) :: removeFirst l1 (p, c, v) :
            List (Nat × Nat × String)) : Multiset (Nat × Nat × String)) :=
          Multiset.coe_eq_coe.mpr (List.perm_append_singleton _ _)
      _ = (3, q.counter, v) ::ₘ
            ((removeFirst l1 (p, c, v) : List (Nat × Nat × String)) :
              Multiset (Nat × Nat × String)) :=
          (Multiset.cons_coe _ _).symm
      _ = (3, q.counter, v) ::ₘ
            (q.video_playlist : Multiset (Nat × Nat × String)).erase
              (p, c, v) := by rw [hcoe2]

theorem C10_witness :
    (QueueingLoop.get_next_video ⟨[(2, 0, "")], 1, true, 20⟩).1 = some "" :=
  (C10_empty_reference_dropped ⟨[(2, 0, "")], 1, true, 20⟩ 2 0 ""
    rfl (by decide) (by decide) (by decide) (by decide)).1
